import Mathlib

/-!
Shallow embedding of the `sessions` Go library (github.com/emillis/sessions).

Source files embedded here:
  * `sessions.go` (content recovered as `unnamed/part_000` / `part_004`):
    `sessionStore`/`SessionStore`, `New`, `Get`, `GetFromCookie`, `Remove`,
    `Exist`, `doesUidExist`, `generateUid`, `makeRequirementsReasonable`,
    the store constructor `New[TValue](r *Requirements)`.
  * `session.go`: the `session`/`Session` record, its accessors and mutators
    (`SetUid`, `SetValue`, `SetKey`, `UpdateLastModified`) and `SetHttpCookie`.

Modelling conventions:
  * Go `*Session` pointers are modelled by natural-number references into an
    explicit heap (`StoreState.heap`); the store's two caches map uid strings
    to such references, so mutating a session through its reference is visible
    to every holder, exactly as with shared pointers in Go.
  * The external `cacheMachine.Cache` collaborator is modelled as an
    association list with map semantics (`Add` = cons, lookup takes the most
    recent binding, `Remove` drops every binding of the key).  TTL expiry is a
    property of that external collaborator and is not modelled; the duration
    passed to `AddWithTimeout` is recorded in the entry.
  * `idGen.Random` is an external random-string source, modelled as an
    arbitrary stream `gen : Nat → String` consumed at an index that is
    threaded through; the unbounded retry loop of `generateUid` is given
    explicit fuel and returns `none` when the fuel runs out.
  * `time.Time` values are modelled as `Nat` timestamps (they are only stored
    and compared, never computed with); `time.Duration` is modelled as `Int`.
    Operations that call `time.Now()` take the current timestamp `now` as an
    explicit parameter.
-/

namespace Sessions

/-- Association-list lookup with map semantics: the most recent binding of a
key wins.  This models `cacheMachine.Cache.Get` / `GetEntry` / `Exist`. -/
def assocLookup {κ α : Type} [DecidableEq κ] (k : κ) : List (κ × α) → Option α
  | [] => none
  | e :: rest => if e.1 = k then some e.2 else assocLookup k rest

/-- Association-list removal of every binding of a key.  This models
`cacheMachine.Cache.Remove`. -/
def assocRemove {κ α : Type} [DecidableEq κ] (k : κ) (l : List (κ × α)) :
    List (κ × α) :=
  l.filter (fun e => decide (e.1 ≠ k))

/-- Configuration of a store: `Requirements` from `requirements.go`.
`UidExist` is an optional Go function value (`nil` = `none`). -/
structure Requirements where
  defaultKey : String
  timeout : Int
  uidExist : Option (String → Bool)

/-- Modelled from the spec: the `defaultRequirements` fallback variable of the
current `requirements.go`, whose body is missing from the recovered sources
(only an older cached variant without the `UidExist` field survives).  Per the
spec it carries the cookie name `"_ssid"`, a non-zero fallback timeout (the
historical code comments give 8 hours, expressed in nanoseconds as Go
durations are), and a `UidExist` predicate that returns false for any input. -/
def defaultRequirements : Requirements :=
  { defaultKey := "_ssid"
    timeout := 28800000000000
    uidExist := some (fun _ => false) }

/-- makeRequirementsReasonable from `unnamed/part_004`: replaces the empty
default key, a zero timeout and a nil `UidExist` with the fallback values. -/
def makeRequirementsReasonable (r : Requirements) : Requirements :=
  let r1 := if r.defaultKey = "" then
      { r with defaultKey := defaultRequirements.defaultKey } else r
  let r2 := if r1.timeout = 0 then
      { r1 with timeout := defaultRequirements.timeout } else r1
  match r2.uidExist with
  | none => { r2 with uidExist := defaultRequirements.uidExist }
  | some _ => r2

/-- The unexported `session` record of `session.go`: uid, key, opaque value
and last-modified timestamp.  The Go zero value of `LastModified`
(`time.Time{}`) is the timestamp `0`. -/
structure SessionRec (V : Type) where
  uid : String
  key : String
  value : V
  lastModified : Nat
deriving DecidableEq, Repr

/-- The state owned by one `SessionStore`: the two uid-keyed caches, the
temporary uid store (reservation set), the normalized requirements, and the
heap of session records reachable through references. -/
structure StoreState (V : Type) where
  sessions : List (String × Nat × Int)
  modifiedSessions : List (String × Nat)
  tmpUidStore : List String
  requirements : Requirements
  heap : List (Nat × SessionRec V)
  nextRef : Nat

variable {V : Type}

/-- Store constructor `New[TValue](r *Requirements)` from `unnamed/part_000`:
a `nil` requirements pointer takes the defaults, otherwise the supplied
requirements are normalized; all caches start empty. -/
def mkStore (V : Type) (r : Option Requirements) : StoreState V :=
  { sessions := []
    modifiedSessions := []
    tmpUidStore := []
    requirements :=
      match r with
      | none => defaultRequirements
      | some rq => makeRequirementsReasonable rq
    heap := []
    nextRef := 0 }

/-- doesUidExist from `unnamed/part_000`: a uid exists when it is a live
session key, a reserved uid in `_tmpUidStore`, or the configured `UidExist`
predicate reports it.  Stores built by the constructor always carry a
non-nil predicate, so the `none` branch is unreachable for them. -/
def doesUidExist (ss : StoreState V) (uid : String) : Bool :=
  (assocLookup uid ss.sessions).isSome || ss.tmpUidStore.contains uid ||
    (match ss.requirements.uidExist with
     | some f => f uid
     | none => false)

/-- generateUid from `unnamed/part_000`: draw candidates from the random
source until one passes `doesUidExist`; return it together with the next
stream index.  The Go loop is unbounded; `fuel` bounds it here and `none`
models non-termination within the budget.  Note that the function does not
modify the store in any way — in particular it never adds the returned
candidate to `_tmpUidStore`. -/
def generateUid (gen : Nat → String) (ss : StoreState V) :
    Nat → Nat → Option (String × Nat)
  | 0, _ => none
  | fuel + 1, k =>
      let newUid := gen k
      if doesUidExist ss newUid then generateUid gen ss fuel (k + 1)
      else some (newUid, k + 1)

/-- The commit half of `SessionStore.New`: build the session record (only
`Uid`, `store` and `Value` are set; `Key` and `LastModified` keep their Go
zero values), add it to `_sessions` with the configured timeout and to
`_modifiedSessions`. -/
def commitNew (ss : StoreState V) (uid : String) (data : V) : StoreState V :=
  { ss with
    sessions := (uid, ss.nextRef, ss.requirements.timeout) :: ss.sessions
    modifiedSessions := (uid, ss.nextRef) :: ss.modifiedSessions
    heap := (ss.nextRef, ⟨uid, "", data, 0⟩) :: ss.heap
    nextRef := ss.nextRef + 1 }

/-- SessionStore.New from `unnamed/part_000`: allocate a uid, construct the
session, insert it into both caches, return it.  The returned tuple carries
the uid, the reference to the new session, the new store state and the next
random-stream index.  `New` never reads the clock — the `now` parameter
represents the wall clock at call time and is deliberately unused, mirroring
the absence of any `time.Now()` call in the source. -/
def storeNew (gen : Nat → String) (fuel k : Nat) (ss : StoreState V)
    (data : V) (now : Nat) : Option (String × Nat × StoreState V × Nat) :=
  match generateUid gen ss fuel k with
  | none => none
  | some (uid, k') => some (uid, ss.nextRef, commitNew ss uid data, k')

/-- SessionStore.Get from `unnamed/part_000`: look the uid up in `_sessions`
and return the stored session pointer, `nil` (`none`) when absent. -/
def getSession (ss : StoreState V) (uid : String) : Option Nat :=
  (assocLookup uid ss.sessions).map (fun e => e.1)

/-- SessionStore.Exist from `unnamed/part_000`: membership in `_sessions`. -/
def exist (ss : StoreState V) (uid : String) : Bool :=
  (assocLookup uid ss.sessions).isSome

/-- SessionStore.Remove from `unnamed/part_000`: delete the uid from both
`_sessions` and `_modifiedSessions`. -/
def removeUid (ss : StoreState V) (uid : String) : StoreState V :=
  { ss with
    sessions := assocRemove uid ss.sessions
    modifiedSessions := assocRemove uid ss.modifiedSessions }

/-- An inbound cookie record (`net/http.Cookie`): the fields `SetHttpCookie`
touches plus representative untouched attributes. -/
structure HttpCookie where
  name : String
  value : String
  path : String
  domain : String
  expires : Nat
  maxAge : Int
  secure : Bool
  httpOnly : Bool
deriving DecidableEq, Repr

/-- The zero-valued `http.Cookie{}`. -/
def emptyCookie : HttpCookie :=
  { name := "", value := "", path := "", domain := "", expires := 0,
    maxAge := 0, secure := false, httpOnly := false }

/-- The inbound `Cookie` interface: given a cookie name, produce the cookie
record or an error (`none`). -/
abbrev CookieSource : Type := String → Option HttpCookie

/-- SessionStore.GetFromCookie from `unnamed/part_000`: a nil source gives
`nil`; an extraction error gives `nil`; otherwise the cookie's value is used
as the uid for a `_sessions` lookup. -/
def getFromCookie (ss : StoreState V) (c : Option CookieSource) : Option Nat :=
  match c with
  | none => none
  | some f =>
      match f ss.requirements.defaultKey with
      | none => none
      | some ck => (assocLookup ck.value ss.sessions).map (fun e => e.1)

/-- Lookup in the session heap: dereferencing a `*Session`. -/
def heapLookup (ref : Nat) (h : List (Nat × SessionRec V)) :
    Option (SessionRec V) :=
  assocLookup ref h

/-- Update the record a reference points to, in place. -/
def heapUpdate (ref : Nat) (f : SessionRec V → SessionRec V)
    (h : List (Nat × SessionRec V)) : List (Nat × SessionRec V) :=
  h.map (fun e => if e.1 = ref then (e.1, f e.2) else e)

/-- Session.SetValue from `session.go`: under the session's lock, assign the
value and update `LastModified`; nothing else is touched — in particular the
owning store's caches are left alone. -/
def setValue (ss : StoreState V) (ref : Nat) (v : V) (now : Nat) :
    StoreState V :=
  { ss with
    heap := heapUpdate ref (fun r => { r with value := v, lastModified := now })
      ss.heap }

/-- Session.SetKey from `session.go`: under the session's lock, update
`LastModified` and assign the key; the store's caches are left alone. -/
def setKey (ss : StoreState V) (ref : Nat) (k : String) (now : Nat) :
    StoreState V :=
  { ss with
    heap := heapUpdate ref (fun r => { r with key := k, lastModified := now })
      ss.heap }

/-- Session.SetUid from `session.go`: under the session's lock, update
`LastModified` and assign the new uid; the store's caches — including the
`_sessions` key the session is filed under — are left alone. -/
def setUid (ss : StoreState V) (ref : Nat) (uid : String) (now : Nat) :
    StoreState V :=
  { ss with
    heap := heapUpdate ref (fun r => { r with uid := uid, lastModified := now })
      ss.heap }

/-- Session.UpdateLastModified from `session.go`: set `LastModified` to now
under the lock, then re-insert the session into the owning store's
`_modifiedSessions` keyed by its current uid. -/
def updateLastModifiedOp (ss : StoreState V) (ref : Nat) (now : Nat) :
    StoreState V :=
  let heap' := heapUpdate ref (fun r => { r with lastModified := now }) ss.heap
  match heapLookup ref heap' with
  | none => { ss with heap := heap' }
  | some r =>
      { ss with heap := heap'
                modifiedSessions := (r.uid, ref) :: ss.modifiedSessions }

/-- The cookie actually written by Session.SetHttpCookie from `session.go`:
start from the supplied template (or the zero cookie when the template is
nil) and overwrite exactly `Name` with the session's key and `Value` with its
uid. -/
def mkSessionCookie (s : SessionRec V) (template : Option HttpCookie) :
    HttpCookie :=
  let c := template.getD emptyCookie
  { c with name := s.key, value := s.uid }

/-- Session.SetHttpCookie from `session.go`: build the cookie and emit it via
`http.SetCookie`, modelled as prepending to the response's cookie list (the
sink). -/
def setHttpCookie (s : SessionRec V) (template : Option HttpCookie)
    (resp : List HttpCookie) : List HttpCookie :=
  mkSessionCookie s template :: resp

/-- N sequential `SessionStore.New` calls, one per value in the list,
collecting the returned uids; `none` if any allocation runs out of fuel. -/
def runNews (gen : Nat → String) (fuel : Nat) :
    List V → StoreState V → Nat → Option (List String × StoreState V × Nat)
  | [], ss, k => some ([], ss, k)
  | v :: vs, ss, k =>
      match storeNew gen fuel k ss v 0 with
      | none => none
      | some (uid, _, ss', k') =>
          match runNews gen fuel vs ss' k' with
          | none => none
          | some (uids, ss2, k2) => some (uid :: uids, ss2, k2)

/-! Basic lemmas about the association-list cache model. -/

theorem assocLookup_remove_self {κ α : Type} [DecidableEq κ] (k : κ)
    (l : List (κ × α)) : assocLookup k (assocRemove k l) = none := by
  induction l with
  | nil => rfl
  | cons e rest ih =>
      by_cases he : e.1 = k
      · simpa [assocRemove, List.filter, he] using ih
      · simpa [assocRemove, List.filter, he, assocLookup] using ih

theorem assocRemove_eq_of_lookup_none {κ α : Type} [DecidableEq κ] (k : κ)
    (l : List (κ × α)) (h : assocLookup k l = none) : assocRemove k l = l := by
  induction l with
  | nil => rfl
  | cons e rest ih =>
      by_cases he : e.1 = k
      · simp [assocLookup, he] at h
      · simp [assocLookup, he] at h
        simp [assocRemove, List.filter, he] at ih ⊢
        exact ih h

theorem assocRemove_idem {κ α : Type} [DecidableEq κ] (k : κ)
    (l : List (κ × α)) : assocRemove k (assocRemove k l) = assocRemove k l :=
  assocRemove_eq_of_lookup_none k _ (assocLookup_remove_self k l)

theorem heapLookup_update_self {V : Type} (ref : Nat)
    (f : SessionRec V → SessionRec V) (h : List (Nat × SessionRec V)) :
    heapLookup ref (heapUpdate ref f h) = (heapLookup ref h).map f := by
  induction h with
  | nil => rfl
  | cons e rest ih =>
      by_cases he : e.1 = ref
      · simp [heapLookup, heapUpdate, assocLookup, he]
      · simpa [heapLookup, heapUpdate, assocLookup, he] using ih

theorem lookup_sessions_eq_none_of_exist_false {V : Type}
    (ss : StoreState V) (uid : String) (h : exist ss uid = false) :
    assocLookup uid ss.sessions = none := by
  cases hl : assocLookup uid ss.sessions with
  | none => rfl
  | some x => simp [exist, hl] at h

/-! Claim theorems. -/

/-- Claim C5: normalizing the zero-valued configuration yields the default
cookie key "_ssid", a non-zero fallback timeout, and a `UidExist` predicate
that is the constant-false function; normalization is a total function with
no error outcome.  (The fallback values themselves are modelled from the
spec, as the current `requirements.go` body is missing from the recovered
sources.) -/
theorem requirements_normalization_defaults :
    (makeRequirementsReasonable ⟨"", 0, none⟩).defaultKey = "_ssid"
  ∧ (makeRequirementsReasonable ⟨"", 0, none⟩).timeout ≠ 0
  ∧ (makeRequirementsReasonable ⟨"", 0, none⟩).uidExist =
      some (fun _ => false) := by
  refine ⟨rfl, ?_, rfl⟩
  intro h
  exact absurd h (by decide)

/-- Claim C9: binding a session to a cookie overwrites exactly the Name and
Value fields with the session's key and uid; every other cookie attribute
passes through from the template (or from the zero cookie when no template is
given), and the cookie is emitted through the supplied sink. -/
theorem cookie_binding_frame {V : Type} (s : SessionRec V)
    (tpl : Option HttpCookie) (resp : List HttpCookie) :
    (mkSessionCookie s tpl).name = s.key
  ∧ (mkSessionCookie s tpl).value = s.uid
  ∧ (mkSessionCookie s tpl).path = (tpl.getD emptyCookie).path
  ∧ (mkSessionCookie s tpl).domain = (tpl.getD emptyCookie).domain
  ∧ (mkSessionCookie s tpl).expires = (tpl.getD emptyCookie).expires
  ∧ (mkSessionCookie s tpl).maxAge = (tpl.getD emptyCookie).maxAge
  ∧ (mkSessionCookie s tpl).secure = (tpl.getD emptyCookie).secure
  ∧ (mkSessionCookie s tpl).httpOnly = (tpl.getD emptyCookie).httpOnly
  ∧ mkSessionCookie s none = { emptyCookie with name := s.key, value := s.uid }
  ∧ setHttpCookie s tpl resp = mkSessionCookie s tpl :: resp :=
  ⟨rfl, rfl, rfl, rfl, rfl, rfl, rfl, rfl, rfl, rfl⟩

/-- Claim C3 evidence: the uid allocator never claims its candidate.  On a
fresh store with the random source yielding "a", `generateUid` returns "a"
(without taking a store, so it cannot record a reservation), and after a full
`SessionStore.New` the `_tmpUidStore` reservation cache is still empty — the
returned uid is not a member of the reservation set at return, contrary to
the claim and to the `_tmpUidStore` field's own comment. -/
theorem allocator_reserves_nothing :
    generateUid (fun _ => "a") (mkStore Nat none) 1 0 = some ("a", 1)
  ∧ (storeNew (fun _ => "a") 1 0 (mkStore Nat none) 5 0).map
      (fun r => r.2.2.1.tmpUidStore) = some [] := by
  exact ⟨rfl, rfl⟩

/-! Concrete states used by the witness theorems. -/

/-- A store holding one live session "u" (ref 0, value 5), as left by the
constructor followed by one `New`. -/
def wStore : StoreState Nat :=
  { sessions := [("u", 0, 28800000000000)]
    modifiedSessions := [("u", 0)]
    tmpUidStore := []
    requirements := defaultRequirements
    heap := [(0, ⟨"u", "", 5, 0⟩)]
    nextRef := 1 }

/-- The store produced by `storeNew` with the constant "a" random source and
value 7 on a freshly constructed empty store. -/
def newStoreWitness : StoreState Nat :=
  { sessions := [("a", 0, 28800000000000)]
    modifiedSessions := [("a", 0)]
    tmpUidStore := []
    requirements := defaultRequirements
    heap := [(0, ⟨"a", "", 7, 0⟩)]
    nextRef := 1 }

/-- Claim C6: `Remove(uid)` deletes the uid from both the Sessions and
ModifiedSessions caches, afterwards `Exist` is false and `Get` is absent; on
a store where the uid is absent it changes nothing (idempotent, no error);
and immediately after `New` the new session's uid does exist. -/
theorem remove_deletes_both_and_new_exists {V : Type}
    (ss t p p' : StoreState V) (uid u : String) (gen : Nat → String)
    (fuel k k' ref : Nat) (v : V)
    (ht1 : exist t uid = false)
    (ht2 : assocLookup uid t.modifiedSessions = none)
    (hnew : storeNew gen fuel k p v 0 = some (u, ref, p', k')) :
    exist (removeUid ss uid) uid = false
  ∧ getSession (removeUid ss uid) uid = none
  ∧ assocLookup uid (removeUid ss uid).modifiedSessions = none
  ∧ removeUid (removeUid ss uid) uid = removeUid ss uid
  ∧ removeUid t uid = t
  ∧ exist p' u = true := by
  refine ⟨?_, ?_, ?_, ?_, ?_, ?_⟩
  · simp [exist, removeUid, assocLookup_remove_self]
  · simp [getSession, removeUid, assocLookup_remove_self]
  · simpa [removeUid] using assocLookup_remove_self uid ss.modifiedSessions
  · simp [removeUid, assocRemove_idem]
  · have h1 := assocRemove_eq_of_lookup_none uid t.sessions
      (lookup_sessions_eq_none_of_exist_false t uid ht1)
    have h2 := assocRemove_eq_of_lookup_none uid t.modifiedSessions ht2
    unfold removeUid
    rw [h1, h2]
  · cases hg : generateUid gen p fuel k with
    | none => simp [storeNew, hg] at hnew
    | some pr =>
        simp [storeNew, hg] at hnew
        obtain ⟨hu, _, hp, _⟩ := hnew
        subst hu
        rw [← hp]
        simp [exist, commitNew, assocLookup]

/-- Witness for C6 at concrete inputs: removing "z" from a one-session store
and creating a session on a fresh store. -/
theorem remove_deletes_both_and_new_exists_witness :
    exist wStore "z" = false
  ∧ assocLookup "z" wStore.modifiedSessions = none
  ∧ storeNew (fun _ => "a") 1 0 (mkStore Nat none) 7 0 =
      some ("a", 0, newStoreWitness, 1)
  ∧ exist (removeUid wStore "z") "z" = false
  ∧ getSession (removeUid wStore "z") "z" = none
  ∧ assocLookup "z" (removeUid wStore "z").modifiedSessions = none
  ∧ removeUid (removeUid wStore "z") "z" = removeUid wStore "z"
  ∧ removeUid wStore "z" = wStore
  ∧ exist newStoreWitness "a" = true := by
  have h := remove_deletes_both_and_new_exists (V := Nat) wStore wStore
    (mkStore Nat none) newStoreWitness "z" "a" (fun _ => "a") 1 0 1 0 7
    (by decide) (by decide) rfl
  exact ⟨by decide, by decide, rfl, h.1, h.2.1, h.2.2.1, h.2.2.2.1,
    h.2.2.2.2.1, h.2.2.2.2.2⟩

/-- Claim C7: `GetFromCookie` returns absent on a nil cookie source, on a
cookie-extraction error, and on a cookie whose value is not a live session's
uid; when the cookie's value is a live uid it returns that session, agreeing
with `Get` on that uid. -/
theorem get_from_cookie_cases {V : Type} (ssA ssB ssC ssD : StoreState V)
    (cB cC cD : CookieSource) (ckC ckD : HttpCookie) (r : Nat) (ttl : Int)
    (hB : cB ssB.requirements.defaultKey = none)
    (hC : cC ssC.requirements.defaultKey = some ckC)
    (hCmiss : assocLookup ckC.value ssC.sessions = none)
    (hD : cD ssD.requirements.defaultKey = some ckD)
    (hDhit : assocLookup ckD.value ssD.sessions = some (r, ttl)) :
    getFromCookie ssA none = none
  ∧ getFromCookie ssB (some cB) = none
  ∧ getFromCookie ssC (some cC) = none
  ∧ getFromCookie ssD (some cD) = some r
  ∧ getFromCookie ssD (some cD) = getSession ssD ckD.value := by
  refine ⟨rfl, ?_, ?_, ?_, ?_⟩
  · simp [getFromCookie, hB]
  · simp [getFromCookie, hC, hCmiss]
  · simp [getFromCookie, hD, hDhit]
  · simp [getFromCookie, getSession, hD]

/-- Witness for C7 at concrete inputs: a one-session store, an erroring
source, a source with an unknown cookie value, and a source carrying the live
uid "u". -/
theorem get_from_cookie_cases_witness :
    ((fun _ => none : CookieSource) wStore.requirements.defaultKey = none)
  ∧ ((fun _ => some emptyCookie : CookieSource)
       wStore.requirements.defaultKey = some emptyCookie)
  ∧ assocLookup emptyCookie.value wStore.sessions = none
  ∧ ((fun _ => some { emptyCookie with value := "u" } : CookieSource)
       wStore.requirements.defaultKey = some { emptyCookie with value := "u" })
  ∧ assocLookup ({ emptyCookie with value := "u" } : HttpCookie).value
      wStore.sessions = some (0, 28800000000000)
  ∧ getFromCookie wStore none = none
  ∧ getFromCookie wStore (some (fun _ => none)) = none
  ∧ getFromCookie wStore (some (fun _ => some emptyCookie)) = none
  ∧ getFromCookie wStore
      (some (fun _ => some { emptyCookie with value := "u" })) = some 0
  ∧ getFromCookie wStore
      (some (fun _ => some { emptyCookie with value := "u" })) =
      getSession wStore ({ emptyCookie with value := "u" } : HttpCookie).value := by
  have h := get_from_cookie_cases (V := Nat) wStore wStore wStore wStore
    (fun _ => none) (fun _ => some emptyCookie)
    (fun _ => some { emptyCookie with value := "u" })
    emptyCookie { emptyCookie with value := "u" } 0 28800000000000
    rfl rfl (by decide) rfl (by decide)
  exact ⟨rfl, rfl, by decide, rfl, by decide, h.1, h.2.1, h.2.2.1,
    h.2.2.2.1, h.2.2.2.2⟩

/-- Claim C8: changing a session's uid does not re-key the store: after
`SetUid(u2)` on the session filed under u1, the Sessions cache is literally
unchanged, `Get(u1)` still returns the same session, `Exist(u2)` is still
false, while the session record itself now carries uid u2. -/
theorem set_uid_does_not_rekey {V : Type} (ss : StoreState V)
    (u1 u2 : String) (r now : Nat) (sr : SessionRec V)
    (h1 : getSession ss u1 = some r)
    (h2 : exist ss u2 = false)
    (h3 : heapLookup r ss.heap = some sr) :
    (setUid ss r u2 now).sessions = ss.sessions
  ∧ getSession (setUid ss r u2 now) u1 = some r
  ∧ exist (setUid ss r u2 now) u2 = false
  ∧ heapLookup r (setUid ss r u2 now).heap =
      some { sr with uid := u2, lastModified := now } := by
  refine ⟨rfl, h1, h2, ?_⟩
  simp only [setUid]
  rw [heapLookup_update_self, h3]
  rfl

/-- Witness for C8 at concrete inputs: the one-session store, renaming the
session from "u" to the never-allocated "z". -/
theorem set_uid_does_not_rekey_witness :
    getSession wStore "u" = some 0
  ∧ exist wStore "z" = false
  ∧ heapLookup 0 wStore.heap = some ⟨"u", "", 5, 0⟩
  ∧ (setUid wStore 0 "z" 9).sessions = wStore.sessions
  ∧ getSession (setUid wStore 0 "z" 9) "u" = some 0
  ∧ exist (setUid wStore 0 "z" 9) "z" = false
  ∧ heapLookup 0 (setUid wStore 0 "z" 9).heap = some ⟨"z", "", 5, 9⟩ := by
  have h := set_uid_does_not_rekey (V := Nat) wStore "u" "z" 0 9 ⟨"u", "", 5, 0⟩
    (by decide) (by decide) (by decide)
  exact ⟨by decide, by decide, by decide, h.1, h.2.1, h.2.2.1, h.2.2.2⟩

/-- Claim C2 counterexample: `SetValue` does not re-insert the session into
the owning store's ModifiedSessions.  Take the store left by `New` (uid "a"),
drain it with `Remove("a")`, then call `SetValue(3)` at time 99: the session's
LastModified does become 99, but ModifiedSessions still has no entry for "a",
although the claim requires the mutator to have re-inserted it. -/
theorem set_value_does_not_mark_modified :
    assocLookup "a"
      (setValue (removeUid newStoreWitness "a") 0 3 99).modifiedSessions = none
  ∧ (heapLookup 0 (setValue (removeUid newStoreWitness "a") 0 3 99).heap).map
      (fun s => s.lastModified) = some 99 := by decide

/-- Claim C2 as amended: each of `SetValue`, `SetKey` and `SetUid` updates the
session's LastModified to the current time before returning but leaves the
owning store's Sessions and ModifiedSessions collections untouched; only the
separate `UpdateLastModified` method re-inserts the session into
ModifiedSessions keyed by its current uid. -/
theorem mutators_touch_only_last_modified {V : Type} (ss : StoreState V)
    (ref now : Nat) (sr : SessionRec V) (v : V) (k2 u2 : String)
    (h : heapLookup ref ss.heap = some sr) :
    heapLookup ref (setValue ss ref v now).heap =
      some { sr with value := v, lastModified := now }
  ∧ (setValue ss ref v now).modifiedSessions = ss.modifiedSessions
  ∧ (setValue ss ref v now).sessions = ss.sessions
  ∧ heapLookup ref (setKey ss ref k2 now).heap =
      some { sr with key := k2, lastModified := now }
  ∧ (setKey ss ref k2 now).modifiedSessions = ss.modifiedSessions
  ∧ (setKey ss ref k2 now).sessions = ss.sessions
  ∧ heapLookup ref (setUid ss ref u2 now).heap =
      some { sr with uid := u2, lastModified := now }
  ∧ (setUid ss ref u2 now).modifiedSessions = ss.modifiedSessions
  ∧ (setUid ss ref u2 now).sessions = ss.sessions
  ∧ heapLookup ref (updateLastModifiedOp ss ref now).heap =
      some { sr with lastModified := now }
  ∧ (updateLastModifiedOp ss ref now).modifiedSessions =
      (sr.uid, ref) :: ss.modifiedSessions := by
  have hh : heapLookup ref
      (heapUpdate ref (fun r => { r with lastModified := now }) ss.heap) =
      some { sr with lastModified := now } := by
    rw [heapLookup_update_self, h]
    rfl
  refine ⟨?_, rfl, rfl, ?_, rfl, rfl, ?_, rfl, rfl, ?_, ?_⟩
  · simp only [setValue]; rw [heapLookup_update_self, h]; rfl
  · simp only [setKey]; rw [heapLookup_update_self, h]; rfl
  · simp only [setUid]; rw [heapLookup_update_self, h]; rfl
  · simp only [updateLastModifiedOp, hh]
  · simp only [updateLastModifiedOp, hh]

/-- Witness for the amended C2 at concrete inputs: the one-session store,
mutation time 9. -/
theorem mutators_touch_only_last_modified_witness :
    heapLookup 0 wStore.heap = some ⟨"u", "", 5, 0⟩
  ∧ heapLookup 0 (setValue wStore 0 3 9).heap = some ⟨"u", "", 3, 9⟩
  ∧ (setValue wStore 0 3 9).modifiedSessions = wStore.modifiedSessions
  ∧ (setValue wStore 0 3 9).sessions = wStore.sessions
  ∧ heapLookup 0 (setKey wStore 0 "kk" 9).heap = some ⟨"u", "kk", 5, 9⟩
  ∧ (setKey wStore 0 "kk" 9).modifiedSessions = wStore.modifiedSessions
  ∧ (setKey wStore 0 "kk" 9).sessions = wStore.sessions
  ∧ heapLookup 0 (setUid wStore 0 "z" 9).heap = some ⟨"z", "", 5, 9⟩
  ∧ (setUid wStore 0 "z" 9).modifiedSessions = wStore.modifiedSessions
  ∧ (setUid wStore 0 "z" 9).sessions = wStore.sessions
  ∧ heapLookup 0 (updateLastModifiedOp wStore 0 9).heap = some ⟨"u", "", 5, 9⟩
  ∧ (updateLastModifiedOp wStore 0 9).modifiedSessions =
      ("u", 0) :: wStore.modifiedSessions := by
  have h := mutators_touch_only_last_modified (V := Nat) wStore 0 9
    ⟨"u", "", 5, 0⟩ 3 "kk" "z" (by decide)
  exact ⟨by decide, h.1, h.2.1, h.2.2.1, h.2.2.2.1, h.2.2.2.2.1,
    h.2.2.2.2.2.1, h.2.2.2.2.2.2.1, h.2.2.2.2.2.2.2.1,
    h.2.2.2.2.2.2.2.2.1, h.2.2.2.2.2.2.2.2.2.1, h.2.2.2.2.2.2.2.2.2.2⟩

/-- Claim C4 counterexample: `New` does not stamp the session with the
creation time.  On a fresh store at wall-clock time 5 the created session's
LastModified is the zero timestamp 0, not 5. -/
theorem new_does_not_set_last_modified :
    (storeNew (fun _ => "a") 1 0 (mkStore Nat none) 7 5).map
      (fun r => (heapLookup r.2.1 r.2.2.1.heap).map (fun s => s.lastModified))
      = some (some 0)
  ∧ ¬ ((storeNew (fun _ => "a") 1 0 (mkStore Nat none) 7 5).map
      (fun r => (heapLookup r.2.1 r.2.2.1.heap).map (fun s => s.lastModified))
      = some (some 5)) := by decide

/-- Claim C4 as amended: `New(v)` returns a session with `Value() == v`, an
empty key and LastModified equal to the zero timestamp (New never reads the
clock), and at return the session is present in the Sessions cache together
with the configured inactivity timeout and in the ModifiedSessions cache. -/
theorem new_session_contents {V : Type} (gen : Nat → String)
    (fuel k now : Nat) (ss : StoreState V) (v : V)
    (r : String × Nat × StoreState V × Nat)
    (h : storeNew gen fuel k ss v now = some r) :
    heapLookup r.2.1 r.2.2.1.heap = some ⟨r.1, "", v, 0⟩
  ∧ assocLookup r.1 r.2.2.1.sessions = some (r.2.1, ss.requirements.timeout)
  ∧ assocLookup r.1 r.2.2.1.modifiedSessions = some r.2.1
  ∧ getSession r.2.2.1 r.1 = some r.2.1
  ∧ exist r.2.2.1 r.1 = true := by
  cases hg : generateUid gen ss fuel k with
  | none => simp [storeNew, hg] at h
  | some pr =>
      simp only [storeNew, hg, Option.some.injEq] at h
      subst h
      refine ⟨?_, ?_, ?_, ?_, ?_⟩ <;>
        simp [commitNew, heapLookup, assocLookup, getSession, exist]

/-- Witness for the amended C4 at concrete inputs: one `New` on a fresh
store yields the session "a" with value 7 present in both caches. -/
theorem new_session_contents_witness :
    storeNew (fun _ => "a") 1 0 (mkStore Nat none) 7 0 =
      some ("a", 0, newStoreWitness, 1)
  ∧ heapLookup 0 newStoreWitness.heap = some ⟨"a", "", 7, 0⟩
  ∧ assocLookup "a" newStoreWitness.sessions = some (0, 28800000000000)
  ∧ assocLookup "a" newStoreWitness.modifiedSessions = some 0
  ∧ getSession newStoreWitness "a" = some 0
  ∧ exist newStoreWitness "a" = true := by
  have h := new_session_contents (V := Nat) (fun _ => "a") 1 0 0
    (mkStore Nat none) 7 ("a", 0, newStoreWitness, 1) rfl
  exact ⟨rfl, h.1, h.2.1, h.2.2.1, h.2.2.2.1, h.2.2.2.2⟩

/-! Lemmas about the uid allocator and sequences of `New` calls. -/

theorem generateUid_fresh {V : Type} (gen : Nat → String) (ss : StoreState V) :
    ∀ fuel k uid k', generateUid gen ss fuel k = some (uid, k') →
      doesUidExist ss uid = false := by
  intro fuel
  induction fuel with
  | zero => intro k uid k' h; simp [generateUid] at h
  | succ n ih =>
      intro k uid k' h
      by_cases hd : doesUidExist ss (gen k) = true
      · simp only [generateUid, hd, if_true] at h
        exact ih _ _ _ h
      · have hd' : doesUidExist ss (gen k) = false := by simpa using hd
        simp [generateUid, hd'] at h
        rw [← h.1]
        exact hd'

theorem exist_commitNew_mono {V : Type} (ss : StoreState V) (uid u : String)
    (d : V) (hu : exist ss u = true) : exist (commitNew ss uid d) u = true := by
  by_cases he : uid = u <;> simp [exist, commitNew, assocLookup, he] <;>
    simpa [exist] using hu

theorem exist_commitNew_self {V : Type} (ss : StoreState V) (uid : String)
    (d : V) : exist (commitNew ss uid d) uid = true := by
  simp [exist, commitNew, assocLookup]

theorem storeNew_inv {V : Type} (gen : Nat → String) (fuel k now : Nat)
    (ss ss' : StoreState V) (v : V) (uid : String) (ref k' : Nat)
    (h : storeNew gen fuel k ss v now = some (uid, ref, ss', k')) :
    exist ss uid = false ∧ ss' = commitNew ss uid v := by
  cases hg : generateUid gen ss fuel k with
  | none => simp [storeNew, hg] at h
  | some pr =>
      obtain ⟨u0, k0⟩ := pr
      simp only [storeNew, hg, Option.some.injEq, Prod.mk.injEq] at h
      obtain ⟨h1, _, h3, _⟩ := h
      subst h1
      have hfresh := generateUid_fresh gen ss fuel k u0 k0 hg
      simp only [doesUidExist, Bool.or_eq_false_iff] at hfresh
      exact ⟨by simpa [exist] using hfresh.1.1, h3.symm⟩

theorem runNews_exist_mono {V : Type} (gen : Nat → String) (fuel : Nat) :
    ∀ (vs : List V) (ss : StoreState V) (k : Nat) (uids : List String)
      (ss2 : StoreState V) (k2 : Nat) (u : String),
      runNews gen fuel vs ss k = some (uids, ss2, k2) →
      exist ss u = true → exist ss2 u = true := by
  intro vs
  induction vs with
  | nil =>
      intro ss k uids ss2 k2 u h hu
      simp only [runNews, Option.some.injEq, Prod.mk.injEq] at h
      obtain ⟨_, h2, _⟩ := h
      subst h2
      exact hu
  | cons v vs ih =>
      intro ss k uids ss2 k2 u h hu
      cases hn : storeNew gen fuel k ss v 0 with
      | none => simp [runNews, hn] at h
      | some r =>
          obtain ⟨u0, ref0, ss1, k1⟩ := r
          cases hrest : runNews gen fuel vs ss1 k1 with
          | none => simp [runNews, hn, hrest] at h
          | some r2 =>
              obtain ⟨uids1, ssf, kf⟩ := r2
              simp only [runNews, hn, hrest, Option.some.injEq,
                Prod.mk.injEq] at h
              obtain ⟨_, h2, _⟩ := h
              subst h2
              have hc := (storeNew_inv gen fuel k 0 ss ss1 v u0 ref0 k1 hn).2
              refine ih ss1 k1 uids1 ssf kf u hrest ?_
              rw [hc]
              exact exist_commitNew_mono ss u0 u v hu

theorem runNews_distinct {V : Type} (gen : Nat → String) (fuel : Nat) :
    ∀ (vs : List V) (ss : StoreState V) (k : Nat) (uids : List String)
      (ss2 : StoreState V) (k2 : Nat),
      runNews gen fuel vs ss k = some (uids, ss2, k2) →
      uids.Nodup ∧ ∀ u, exist ss u = true → u ∉ uids := by
  intro vs
  induction vs with
  | nil =>
      intro ss k uids ss2 k2 h
      simp only [runNews, Option.some.injEq, Prod.mk.injEq] at h
      obtain ⟨h1, _, _⟩ := h
      subst h1
      refine ⟨List.nodup_nil, ?_⟩
      intro u _ hmem
      exact (List.not_mem_nil u) hmem
  | cons v vs ih =>
      intro ss k uids ss2 k2 h
      cases hn : storeNew gen fuel k ss v 0 with
      | none => simp [runNews, hn] at h
      | some r =>
          obtain ⟨u0, ref0, ss1, k1⟩ := r
          cases hrest : runNews gen fuel vs ss1 k1 with
          | none => simp [runNews, hn, hrest] at h
          | some r2 =>
              obtain ⟨uids1, ssf, kf⟩ := r2
              simp only [runNews, hn, hrest, Option.some.injEq,
                Prod.mk.injEq] at h
              obtain ⟨h1, _, _⟩ := h
              subst h1
              obtain ⟨hfresh, hcommit⟩ :=
                storeNew_inv gen fuel k 0 ss ss1 v u0 ref0 k1 hn
              obtain ⟨hnodup1, hfree1⟩ := ih ss1 k1 uids1 ssf kf hrest
              have hself : exist ss1 u0 = true := by
                rw [hcommit]; exact exist_commitNew_self ss u0 v
              refine ⟨List.nodup_cons.mpr ⟨hfree1 u0 hself, hnodup1⟩, ?_⟩
              intro u hu hmem
              rcases List.mem_cons.mp hmem with heq | hmem1
              · rw [heq] at hu
                rw [hu] at hfresh
                cases hfresh
              · have hu1 : exist ss1 u = true := by
                  rw [hcommit]; exact exist_commitNew_mono ss u0 u v hu
                exact hfree1 u hu1 hmem1

/-- Claim C1: the uids returned by N sequential `New` calls on one store are
pairwise distinct (each allocation rejects any candidate already present in
the store's Sessions cache, where every previously returned uid lives). -/
theorem sequential_new_uids_pairwise_distinct {V : Type} (gen : Nat → String)
    (fuel : Nat) (vs : List V) (ss : StoreState V) (k : Nat)
    (uids : List String) (ss2 : StoreState V) (k2 : Nat)
    (h : runNews gen fuel vs ss k = some (uids, ss2, k2)) :
    uids.Nodup :=
  (runNews_distinct gen fuel vs ss k uids ss2 k2 h).1

/-- The store produced by two successive `New` calls (values 10 and 20) on a
fresh store with the random source yielding "x" then "y". -/
def twoNewStoreWitness : StoreState Nat :=
  { sessions := [("y", 1, 28800000000000), ("x", 0, 28800000000000)]
    modifiedSessions := [("y", 1), ("x", 0)]
    tmpUidStore := []
    requirements := defaultRequirements
    heap := [(1, ⟨"y", "", 20, 0⟩), (0, ⟨"x", "", 10, 0⟩)]
    nextRef := 2 }

/-- Witness for C1 at concrete inputs: two sequential `New` calls return the
distinct uids "x" and "y". -/
theorem sequential_new_uids_pairwise_distinct_witness :
    runNews (fun n => if n = 0 then "x" else "y") 2 [10, 20]
      (mkStore Nat none) 0 = some (["x", "y"], twoNewStoreWitness, 2)
  ∧ (["x", "y"] : List String).Nodup :=
  ⟨rfl, sequential_new_uids_pairwise_distinct
    (fun n => if n = 0 then "x" else "y") 2 [10, 20] (mkStore Nat none) 0
    ["x", "y"] twoNewStoreWitness 2 rfl⟩

/-! Interleaving semantics for two concurrent `New` calls.

Each `cacheMachine` operation is atomic (the external cache is documented as
internally thread-safe), but `SessionStore.New` takes no store-level lock, so
the allocator's generate-and-check phase and the subsequent insertions of one
call may interleave with the other call's phases.  Each goroutine is modelled
with a program counter: pc 0 = drawing and checking candidates (one retry per
step), pc 1 = candidate accepted, insertions pending, pc 2 = done.  Merging
the generate and check into one atomic step, and the two insertions into one
atomic step, only removes schedules, so any behaviour exhibited here is a
behaviour of the source. -/

structure RaceState (V : Type) where
  store : StoreState V
  pc1 : Nat
  cand1 : String
  att1 : Nat
  pc2 : Nat
  cand2 : String
  att2 : Nat

/-- Both goroutines at the start of `New`, sharing the store. -/
def initRace (ss : StoreState V) : RaceState V := ⟨ss, 0, "", 0, 0, "", 0⟩

/-- One step of goroutine 1 executing `SessionStore.New`. -/
def thread1Step (gen1 : Nat → String) (v1 : V) (st : RaceState V) :
    RaceState V :=
  if st.pc1 = 0 then
    let c := gen1 st.att1
    if doesUidExist st.store c then { st with att1 := st.att1 + 1 }
    else { st with cand1 := c, pc1 := 1 }
  else if st.pc1 = 1 then
    { st with store := commitNew st.store st.cand1 v1, pc1 := 2 }
  else st

/-- One step of goroutine 2 executing `SessionStore.New`. -/
def thread2Step (gen2 : Nat → String) (v2 : V) (st : RaceState V) :
    RaceState V :=
  if st.pc2 = 0 then
    let c := gen2 st.att2
    if doesUidExist st.store c then { st with att2 := st.att2 + 1 }
    else { st with cand2 := c, pc2 := 1 }
  else if st.pc2 = 1 then
    { st with store := commitNew st.store st.cand2 v2, pc2 := 2 }
  else st

/-- One scheduler step: `false` runs goroutine 1, `true` runs goroutine 2. -/
def raceStep (gen1 gen2 : Nat → String) (v1 v2 : V) (t : Bool)
    (st : RaceState V) : RaceState V :=
  match t with
  | false => thread1Step gen1 v1 st
  | true => thread2Step gen2 v2 st

/-- Run a finite schedule of interleaved steps. -/
def raceRun (gen1 gen2 : Nat → String) (v1 v2 : V) :
    List Bool → RaceState V → RaceState V
  | [], st => st
  | t :: rest, st =>
      raceRun gen1 gen2 v1 v2 rest (raceStep gen1 gen2 v1 v2 t st)

/-- The interleaved execution in which both goroutines pass the existence
check for the same candidate "a" before either inserts it. -/
def racedFinal : RaceState Nat :=
  raceRun (fun _ => "a") (fun _ => "a") 1 2 [false, true, false, true]
    (initRace (mkStore Nat none))

/-- The serialized execution: goroutine 1 runs to completion, then
goroutine 2, with distinct candidates available. -/
def serialFinal : RaceState Nat :=
  raceRun (fun _ => "x") (fun _ => "y") 1 2
    (List.replicate 2 false ++ List.replicate 2 true)
    (initRace (mkStore Nat none))

/-- Claim C10 counterexample: two concurrent `New` calls on one store need
not yield two pairwise-distinct uids with two ModifiedSessions entries.
With both goroutines' random source producing "a" and the schedule check-1,
check-2, insert-1, insert-2, both calls complete (pc 2) and both return the
uid "a"; in both the Sessions and the ModifiedSessions cache the key "a" now
resolves only to goroutine 2's session (reference 1), so goroutine 1's
insertions — including its ModifiedSessions insertion — are shadowed and
lost. -/
theorem concurrent_new_can_collide :
    racedFinal.pc1 = 2
  ∧ racedFinal.pc2 = 2
  ∧ racedFinal.cand1 = "a"
  ∧ racedFinal.cand2 = "a"
  ∧ ¬ ([racedFinal.cand1, racedFinal.cand2].Nodup)
  ∧ racedFinal.store.sessions.map (fun e => e.1) = ["a", "a"]
  ∧ racedFinal.store.modifiedSessions.map (fun e => e.1) = ["a", "a"]
  ∧ assocLookup "a" racedFinal.store.sessions = some (1, 28800000000000)
  ∧ assocLookup "a" racedFinal.store.modifiedSessions = some 1 := by decide

/-! Frame and invariant lemmas for the interleaving semantics. -/

theorem thread2Step_frame1 {V : Type} (gen2 : Nat → String) (v2 : V)
    (st : RaceState V) :
    (thread2Step gen2 v2 st).pc1 = st.pc1
  ∧ (thread2Step gen2 v2 st).cand1 = st.cand1 := by
  by_cases h0 : st.pc2 = 0
  · by_cases hd : doesUidExist st.store (gen2 st.att2) = true
    · simp [thread2Step, h0, hd]
    · simp [thread2Step, h0, hd]
  · by_cases h1 : st.pc2 = 1
    · simp [thread2Step, h0, h1]
    · simp [thread2Step, h0, h1]

theorem thread1Step_frame2 {V : Type} (gen1 : Nat → String) (v1 : V)
    (st : RaceState V) : (thread1Step gen1 v1 st).pc2 = st.pc2 := by
  by_cases h0 : st.pc1 = 0
  · by_cases hd : doesUidExist st.store (gen1 st.att1) = true
    · simp [thread1Step, h0, hd]
    · simp [thread1Step, h0, hd]
  · by_cases h1 : st.pc1 = 1
    · simp [thread1Step, h0, h1]
    · simp [thread1Step, h0, h1]

theorem raceRun_append {V : Type} (gen1 gen2 : Nat → String) (v1 v2 : V) :
    ∀ (l1 l2 : List Bool) (st : RaceState V),
      raceRun gen1 gen2 v1 v2 (l1 ++ l2) st =
      raceRun gen1 gen2 v1 v2 l2 (raceRun gen1 gen2 v1 v2 l1 st) := by
  intro l1
  induction l1 with
  | nil => intro l2 st; rfl
  | cons t rest ih =>
      intro l2 st
      simp only [List.cons_append, raceRun]
      exact ih l2 _

theorem raceRun_true_frame1 {V : Type} (gen1 gen2 : Nat → String)
    (v1 v2 : V) : ∀ (n : Nat) (st : RaceState V),
    (raceRun gen1 gen2 v1 v2 (List.replicate n true) st).pc1 = st.pc1
  ∧ (raceRun gen1 gen2 v1 v2 (List.replicate n true) st).cand1 = st.cand1 := by
  intro n
  induction n with
  | zero => intro st; exact ⟨rfl, rfl⟩
  | succ m ih =>
      intro st
      simp only [List.replicate, raceRun, raceStep]
      have hstep := thread2Step_frame1 gen2 v2 st
      have hrest := ih (thread2Step gen2 v2 st)
      exact ⟨hrest.1.trans hstep.1, hrest.2.trans hstep.2⟩

theorem raceRun_false_frame2 {V : Type} (gen1 gen2 : Nat → String)
    (v1 v2 : V) : ∀ (m : Nat) (st : RaceState V),
    (raceRun gen1 gen2 v1 v2 (List.replicate m false) st).pc2 = st.pc2 := by
  intro m
  induction m with
  | zero => intro st; rfl
  | succ m ih =>
      intro st
      simp only [List.replicate, raceRun, raceStep]
      exact (ih (thread1Step gen1 v1 st)).trans
        (thread1Step_frame2 gen1 v1 st)

theorem raceStep_inv1 {V : Type} (gen1 gen2 : Nat → String) (v1 v2 : V)
    (t : Bool) (st : RaceState V)
    (h : st.pc1 = 2 → exist st.store st.cand1 = true) :
    (raceStep gen1 gen2 v1 v2 t st).pc1 = 2 →
      exist (raceStep gen1 gen2 v1 v2 t st).store
        (raceStep gen1 gen2 v1 v2 t st).cand1 = true := by
  cases t with
  | false =>
      simp only [raceStep]
      by_cases h0 : st.pc1 = 0
      · by_cases hd : doesUidExist st.store (gen1 st.att1) = true
        · simp only [thread1Step, h0, if_true, hd]
          simpa using h
        · simp [thread1Step, h0, hd]
      · by_cases h1 : st.pc1 = 1
        · simp only [thread1Step, h0, if_false, h1, if_true]
          intro _
          exact exist_commitNew_self st.store st.cand1 v1
        · simpa [thread1Step, h0, h1] using h
  | true =>
      simp only [raceStep]
      by_cases h0 : st.pc2 = 0
      · by_cases hd : doesUidExist st.store (gen2 st.att2) = true
        · simpa [thread2Step, h0, hd] using h
        · simpa [thread2Step, h0, hd] using h
      · by_cases h1 : st.pc2 = 1
        · simp only [thread2Step, h0, if_false, h1, if_true]
          intro hp
          exact exist_commitNew_mono st.store st.cand2 st.cand1 v2 (h hp)
        · simpa [thread2Step, h0, h1] using h

theorem raceRun_inv1 {V : Type} (gen1 gen2 : Nat → String) (v1 v2 : V) :
    ∀ (sched : List Bool) (st : RaceState V),
      (st.pc1 = 2 → exist st.store st.cand1 = true) →
      (raceRun gen1 gen2 v1 v2 sched st).pc1 = 2 →
        exist (raceRun gen1 gen2 v1 v2 sched st).store
          (raceRun gen1 gen2 v1 v2 sched st).cand1 = true := by
  intro sched
  induction sched with
  | nil => intro st h; exact h
  | cons t rest ih =>
      intro st h
      exact ih (raceStep gen1 gen2 v1 v2 t st)
        (raceStep_inv1 gen1 gen2 v1 v2 t st h)

theorem thread2Step_keeps {V : Type} (gen2 : Nat → String) (v2 : V)
    (st : RaceState V) (hA : st.pc1 = 2)
    (hB : exist st.store st.cand1 = true)
    (hC : st.pc2 ≠ 0 → st.cand2 ≠ st.cand1) :
    (thread2Step gen2 v2 st).pc1 = 2
  ∧ exist (thread2Step gen2 v2 st).store (thread2Step gen2 v2 st).cand1 = true
  ∧ ((thread2Step gen2 v2 st).pc2 ≠ 0 →
      (thread2Step gen2 v2 st).cand2 ≠ (thread2Step gen2 v2 st).cand1) := by
  by_cases h0 : st.pc2 = 0
  · by_cases hd : doesUidExist st.store (gen2 st.att2) = true
    · simp only [thread2Step, h0, if_true, hd]
      exact ⟨hA, hB, fun hp => absurd rfl hp⟩
    · have hdf : doesUidExist st.store (gen2 st.att2) = false := by
        simpa using hd
      have hne : gen2 st.att2 ≠ st.cand1 := by
        intro he
        rw [he] at hdf
        simp only [doesUidExist, Bool.or_eq_false_iff] at hdf
        have hfirst := hdf.1.1
        simp only [exist] at hB
        rw [hB] at hfirst
        cases hfirst
      simp only [thread2Step, h0, if_true, hdf, Bool.false_eq_true, if_false]
      exact ⟨hA, hB, fun _ => hne⟩
  · by_cases h1 : st.pc2 = 1
    · simp only [thread2Step, h0, if_false, h1, if_true]
      exact ⟨hA, exist_commitNew_mono st.store st.cand2 st.cand1 v2 hB,
        fun _ => hC h0⟩
    · simp only [thread2Step, h0, if_false, h1]
      exact ⟨hA, hB, fun _ => hC h0⟩

theorem raceRun_true_keeps {V : Type} (gen1 gen2 : Nat → String)
    (v1 v2 : V) : ∀ (n : Nat) (st : RaceState V), st.pc1 = 2 →
      exist st.store st.cand1 = true →
      (st.pc2 ≠ 0 → st.cand2 ≠ st.cand1) →
      (raceRun gen1 gen2 v1 v2 (List.replicate n true) st).pc1 = 2
    ∧ exist (raceRun gen1 gen2 v1 v2 (List.replicate n true) st).store
        (raceRun gen1 gen2 v1 v2 (List.replicate n true) st).cand1 = true
    ∧ ((raceRun gen1 gen2 v1 v2 (List.replicate n true) st).pc2 ≠ 0 →
        (raceRun gen1 gen2 v1 v2 (List.replicate n true) st).cand2 ≠
        (raceRun gen1 gen2 v1 v2 (List.replicate n true) st).cand1) := by
  intro n
  induction n with
  | zero => intro st hA hB hC; exact ⟨hA, hB, hC⟩
  | succ m ih =>
      intro st hA hB hC
      simp only [List.replicate, raceRun, raceStep]
      obtain ⟨hA', hB', hC'⟩ := thread2Step_keeps gen2 v2 st hA hB hC
      exact ih (thread2Step gen2 v2 st) hA' hB' hC'

/-- Serialization at the interleaving level, for two goroutines: for any
schedule in which all of goroutine 1's steps precede goroutine 2's, if both
calls complete then the two returned uids differ.  This supports the amended
C10 statement by connecting interleaving-level serialization with the
sequential composition. -/
theorem serialized_new_calls_distinct {V : Type} (gen1 gen2 : Nat → String)
    (v1 v2 : V) (m n : Nat) (ss0 : StoreState V)
    (h1 : (raceRun gen1 gen2 v1 v2
        (List.replicate m false ++ List.replicate n true)
        (initRace ss0)).pc1 = 2)
    (h2 : (raceRun gen1 gen2 v1 v2
        (List.replicate m false ++ List.replicate n true)
        (initRace ss0)).pc2 = 2) :
    (raceRun gen1 gen2 v1 v2
        (List.replicate m false ++ List.replicate n true)
        (initRace ss0)).cand1 ≠
    (raceRun gen1 gen2 v1 v2
        (List.replicate m false ++ List.replicate n true)
        (initRace ss0)).cand2 := by
  have happ := raceRun_append gen1 gen2 v1 v2 (List.replicate m false)
    (List.replicate n true) (initRace ss0)
  rw [happ] at h1 h2 ⊢
  have hmidpc1 : (raceRun gen1 gen2 v1 v2 (List.replicate m false)
      (initRace ss0)).pc1 = 2 := by
    rw [← (raceRun_true_frame1 gen1 gen2 v1 v2 n _).1]
    exact h1
  have hmidpc2 : (raceRun gen1 gen2 v1 v2 (List.replicate m false)
      (initRace ss0)).pc2 = 0 := by
    rw [raceRun_false_frame2 gen1 gen2 v1 v2 m (initRace ss0)]
    rfl
  have hmidB : exist (raceRun gen1 gen2 v1 v2 (List.replicate m false)
        (initRace ss0)).store
      (raceRun gen1 gen2 v1 v2 (List.replicate m false)
        (initRace ss0)).cand1 = true := by
    refine raceRun_inv1 gen1 gen2 v1 v2 (List.replicate m false)
      (initRace ss0) ?_ hmidpc1
    intro hx
    simp [initRace] at hx
  obtain ⟨_, _, hCfin⟩ := raceRun_true_keeps gen1 gen2 v1 v2 n
    (raceRun gen1 gen2 v1 v2 (List.replicate m false) (initRace ss0))
    hmidpc1 hmidB (fun hp => absurd hmidpc2 hp)
  have hne := hCfin (by rw [h2]; decide)
  exact fun he => hne he.symm

/-- Concrete instance of the interleaving-level serialization lemma: two
serialized `New` calls (schedule goroutine 1 twice, then goroutine 2 twice)
both complete and return the distinct uids "x" and "y". -/
theorem serialized_new_calls_distinct_witness :
    serialFinal.pc1 = 2 ∧ serialFinal.pc2 = 2
  ∧ serialFinal.cand1 ≠ serialFinal.cand2 := by
  have h := serialized_new_calls_distinct (fun _ => "x") (fun _ => "y")
    (1 : Nat) 2 2 2 (mkStore Nat none) (by decide) (by decide)
  exact ⟨by decide, by decide, h⟩

/-! Membership of every allocated uid in both caches, for arbitrarily many
serialized calls.  A fully serialized schedule of K goroutines each running
`New` once is exactly the sequential composition of K `New` calls, which
`runNews` embeds. -/

theorem modified_commitNew_mono {V : Type} (ss : StoreState V)
    (uid u : String) (d : V)
    (h : (assocLookup u ss.modifiedSessions).isSome = true) :
    (assocLookup u (commitNew ss uid d).modifiedSessions).isSome = true := by
  by_cases he : uid = u
  · simp [commitNew, assocLookup, he]
  · simpa [commitNew, assocLookup, he] using h

theorem modified_commitNew_self {V : Type} (ss : StoreState V)
    (uid : String) (d : V) :
    (assocLookup uid (commitNew ss uid d).modifiedSessions).isSome = true := by
  simp [commitNew, assocLookup]

theorem runNews_length {V : Type} (gen : Nat → String) (fuel : Nat) :
    ∀ (vs : List V) (ss : StoreState V) (k : Nat) (uids : List String)
      (ss2 : StoreState V) (k2 : Nat),
      runNews gen fuel vs ss k = some (uids, ss2, k2) →
      uids.length = vs.length := by
  intro vs
  induction vs with
  | nil =>
      intro ss k uids ss2 k2 h
      simp only [runNews, Option.some.injEq, Prod.mk.injEq] at h
      obtain ⟨h1, _, _⟩ := h
      subst h1
      rfl
  | cons v vs ih =>
      intro ss k uids ss2 k2 h
      cases hn : storeNew gen fuel k ss v 0 with
      | none => simp [runNews, hn] at h
      | some r =>
          obtain ⟨u0, ref0, ss1, k1⟩ := r
          cases hrest : runNews gen fuel vs ss1 k1 with
          | none => simp [runNews, hn, hrest] at h
          | some r2 =>
              obtain ⟨uids1, ssf, kf⟩ := r2
              simp only [runNews, hn, hrest, Option.some.injEq,
                Prod.mk.injEq] at h
              obtain ⟨h1, _, _⟩ := h
              subst h1
              simp only [List.length_cons]
              rw [ih ss1 k1 uids1 ssf kf hrest]

theorem runNews_modified_mono {V : Type} (gen : Nat → String) (fuel : Nat) :
    ∀ (vs : List V) (ss : StoreState V) (k : Nat) (uids : List String)
      (ss2 : StoreState V) (k2 : Nat) (u : String),
      runNews gen fuel vs ss k = some (uids, ss2, k2) →
      (assocLookup u ss.modifiedSessions).isSome = true →
      (assocLookup u ss2.modifiedSessions).isSome = true := by
  intro vs
  induction vs with
  | nil =>
      intro ss k uids ss2 k2 u h hu
      simp only [runNews, Option.some.injEq, Prod.mk.injEq] at h
      obtain ⟨_, h2, _⟩ := h
      subst h2
      exact hu
  | cons v vs ih =>
      intro ss k uids ss2 k2 u h hu
      cases hn : storeNew gen fuel k ss v 0 with
      | none => simp [runNews, hn] at h
      | some r =>
          obtain ⟨u0, ref0, ss1, k1⟩ := r
          cases hrest : runNews gen fuel vs ss1 k1 with
          | none => simp [runNews, hn, hrest] at h
          | some r2 =>
              obtain ⟨uids1, ssf, kf⟩ := r2
              simp only [runNews, hn, hrest, Option.some.injEq,
                Prod.mk.injEq] at h
              obtain ⟨_, h2, _⟩ := h
              subst h2
              have hc := (storeNew_inv gen fuel k 0 ss ss1 v u0 ref0 k1 hn).2
              refine ih ss1 k1 uids1 ssf kf u hrest ?_
              rw [hc]
              exact modified_commitNew_mono ss u0 u v hu

theorem runNews_members {V : Type} (gen : Nat → String) (fuel : Nat) :
    ∀ (vs : List V) (ss : StoreState V) (k : Nat) (uids : List String)
      (ss2 : StoreState V) (k2 : Nat),
      runNews gen fuel vs ss k = some (uids, ss2, k2) →
      ∀ u ∈ uids, exist ss2 u = true ∧
        (assocLookup u ss2.modifiedSessions).isSome = true := by
  intro vs
  induction vs with
  | nil =>
      intro ss k uids ss2 k2 h
      simp only [runNews, Option.some.injEq, Prod.mk.injEq] at h
      obtain ⟨h1, _, _⟩ := h
      subst h1
      intro u hmem
      exact absurd hmem (List.not_mem_nil u)
  | cons v vs ih =>
      intro ss k uids ss2 k2 h
      cases hn : storeNew gen fuel k ss v 0 with
      | none => simp [runNews, hn] at h
      | some r =>
          obtain ⟨u0, ref0, ss1, k1⟩ := r
          cases hrest : runNews gen fuel vs ss1 k1 with
          | none => simp [runNews, hn, hrest] at h
          | some r2 =>
              obtain ⟨uids1, ssf, kf⟩ := r2
              simp only [runNews, hn, hrest, Option.some.injEq,
                Prod.mk.injEq] at h
              obtain ⟨h1, h2, _⟩ := h
              subst h1
              subst h2
              have hc := (storeNew_inv gen fuel k 0 ss ss1 v u0 ref0 k1 hn).2
              intro u hmem
              rcases List.mem_cons.mp hmem with heq | hmem1
              · subst heq
                constructor
                · refine runNews_exist_mono gen fuel vs ss1 k1 uids1 ssf kf
                    u hrest ?_
                  rw [hc]
                  exact exist_commitNew_self ss u v
                · refine runNews_modified_mono gen fuel vs ss1 k1 uids1 ssf kf
                    u hrest ?_
                  rw [hc]
                  exact modified_commitNew_self ss u v
              · exact ih ss1 k1 uids1 ssf kf hrest u hmem1

/-- Claim C10 as amended: serialized `New` calls — and only serialized ones —
carry the stress property.  For every K, a serialized execution of K `New`
calls (one goroutine after another, which is exactly the sequential
composition `runNews` embeds) that completes yields K sessions whose K uids
are pairwise distinct, every one of them live in the Sessions cache and with
its own entry in the ModifiedSessions cache, so no insertion is lost.  Under
genuinely concurrent interleavings the guarantee fails (see the
counterexample): the allocator's generate-check-insert sequence is not
atomic, so two calls can both pass the existence check for one candidate,
both return it, and the later insertion shadows the earlier one in both
caches. -/
theorem serialized_new_calls_complete {V : Type} (gen : Nat → String)
    (fuel : Nat) (vs : List V) (ss : StoreState V) (k : Nat)
    (uids : List String) (ss2 : StoreState V) (k2 : Nat)
    (h : runNews gen fuel vs ss k = some (uids, ss2, k2)) :
    uids.length = vs.length
  ∧ uids.Nodup
  ∧ uids.all (fun u => exist ss2 u) = true
  ∧ uids.all (fun u => (assocLookup u ss2.modifiedSessions).isSome) = true := by
  refine ⟨runNews_length gen fuel vs ss k uids ss2 k2 h,
    (runNews_distinct gen fuel vs ss k uids ss2 k2 h).1, ?_, ?_⟩
  · rw [List.all_eq_true]
    intro u hu
    exact (runNews_members gen fuel vs ss k uids ss2 k2 h u hu).1
  · rw [List.all_eq_true]
    intro u hu
    exact (runNews_members gen fuel vs ss k uids ss2 k2 h u hu).2

/-- The store produced by three successive `New` calls (values 10, 20, 30)
on a fresh store with the random source yielding "x", "y", "z". -/
def threeNewStoreWitness : StoreState Nat :=
  { sessions := [("z", 2, 28800000000000), ("y", 1, 28800000000000),
      ("x", 0, 28800000000000)]
    modifiedSessions := [("z", 2), ("y", 1), ("x", 0)]
    tmpUidStore := []
    requirements := defaultRequirements
    heap := [(2, ⟨"z", "", 30, 0⟩), (1, ⟨"y", "", 20, 0⟩),
      (0, ⟨"x", "", 10, 0⟩)]
    nextRef := 3 }

/-- Witness for the amended C10 at concrete inputs: three serialized `New`
calls (K = 3) return the three pairwise-distinct uids "x", "y", "z", each
present in both the Sessions and the ModifiedSessions cache. -/
theorem serialized_new_calls_complete_witness :
    runNews (fun n => if n = 0 then "x" else if n = 1 then "y" else "z") 2
      [10, 20, 30] (mkStore Nat none) 0 =
      some (["x", "y", "z"], threeNewStoreWitness, 3)
  ∧ (["x", "y", "z"] : List String).length = ([10, 20, 30] : List Nat).length
  ∧ (["x", "y", "z"] : List String).Nodup
  ∧ (["x", "y", "z"] : List String).all
      (fun u => exist threeNewStoreWitness u) = true
  ∧ (["x", "y", "z"] : List String).all
      (fun u => (assocLookup u threeNewStoreWitness.modifiedSessions).isSome)
      = true := by
  have h := serialized_new_calls_complete
    (fun n => if n = 0 then "x" else if n = 1 then "y" else "z") 2
    [10, 20, 30] (mkStore Nat none) 0 ["x", "y", "z"] threeNewStoreWitness 3
    rfl
  exact ⟨rfl, h.1, h.2.1, h.2.2.1, h.2.2.2⟩

end Sessions
